import Mathlib

/-!
Verification of the quick-chat WebSocket relay server (canonical variant of
`src/server.js`): room store, history buffer, typing presence, join/close
handlers, inbound-message dispatch, and the periodic liveness sweep, embedded
shallowly as pure state-transition functions producing lists of send/close
effects.
-/

namespace ChatServer

/-- `MAX_MESSAGES` constant (server.js line 248). -/
def MAX_MESSAGES : Nat := 50

/-- A JavaScript/JSON value as produced by `JSON.parse` (or built by an object
literal in the handler).  `undefined` is represented by `Option.none` at use
sites, not as a `JVal`. -/
inductive JVal where
  | jnull
  | jbool (b : Bool)
  | jnum (n : Int)
  | jstr (s : String)
  | jarr (elems : List JVal)
  | jobj (fields : List (String × JVal))
deriving Repr

/-- One entry of a room's client list (`clientInfo`, server.js line 366).
The `ws` object is modelled by an identifier `wsId`; its mutable
`readyState` is modelled by an environment `Nat → Bool` (true = OPEN). -/
structure Client where
  wsId : Nat
  nick : String
  roomId : String
  joinedAt : Nat
deriving Repr, DecidableEq

/-- One stored chat message (server.js lines 451-455). -/
structure Message where
  nick : String
  text : JVal
  timestamp : Nat
deriving Repr

/-- Association-list lookup, modelling JS object property read `m[k]`. -/
def alookup {α : Type} : List (String × α) → String → Option α
  | [], _ => none
  | (k', v) :: rest, k => if k' = k then some v else alookup rest k

/-- Association-list update, modelling JS property assignment `m[k] = v`. -/
def aset {α : Type} : List (String × α) → String → α → List (String × α)
  | [], k, v => [(k, v)]
  | (k', v') :: rest, k, v =>
      if k' = k then (k, v) :: rest else (k', v') :: aset rest k v

/-- Association-list key removal, modelling `delete m[k]`. -/
def aerase {α : Type} (m : List (String × α)) (k : String) : List (String × α) :=
  m.filter (fun p => p.1 ≠ k)

/-- The server's three module-level registries (server.js lines 245-247):
`rooms`, `messageBuffers` and `typingUsers` (each `Set` is modelled as a
duplicate-free insertion-ordered list). -/
structure ServerState where
  rooms : List (String × List Client)
  messageBuffers : List (String × List Message)
  typingUsers : List (String × List String)
deriving Repr

/-- JS `Set.add`: appends if absent (insertion order preserved). -/
def setAdd (s : List String) (x : String) : List String :=
  if x ∈ s then s else s ++ [x]

/-- JS `Set.delete`. -/
def setDel (s : List String) (x : String) : List String :=
  s.filter (fun y => y ≠ x)

/-- A server→client wire event (the JSON shapes of server.js). -/
inductive WireEvent where
  | connected (message : String)
  | history (messages : List Message)
  | userList (users : List String)
  | typing (typingUsers : List String)
  | system (text : String) (timestamp : Nat)
  | message (nick : String) (text : JVal) (timestamp : Nat)
  | error (message : String)
deriving Repr

/-- An observable side effect of a handler: a `ws.send` to one connection, or
a `ws.close(code, reason)`. -/
inductive Effect where
  | unicast (wsId : Nat) (event : WireEvent)
  | closeConn (wsId : Nat) (code : Nat) (reason : String)
deriving Repr

/-- JS `String.prototype.trim()`: strip leading and trailing whitespace
(modelled character-wise so that it evaluates by kernel reduction). -/
def jsTrim (s : String) : String :=
  String.mk
    (((s.toList.dropWhile Char.isWhitespace).reverse.dropWhile
        Char.isWhitespace).reverse)

/-- JS property read `v.k`: throws a `TypeError` when `v` is `null`; yields the
field (or `undefined`, i.e. `none`) otherwise.  Property access on primitives
and arrays yields `undefined` for the keys used by the handler. -/
def jsMember : JVal → String → Except Unit (Option JVal)
  | JVal.jnull, _ => Except.error ()
  | JVal.jobj fs, k => Except.ok (alookup fs k)
  | _, _ => Except.ok none

/-- JS truthiness of a possibly-`undefined` value. -/
def jsTruthy : Option JVal → Bool
  | none => false
  | some JVal.jnull => false
  | some (JVal.jbool b) => b
  | some (JVal.jnum n) => !(n == 0)
  | some (JVal.jstr s) => !(s == "")
  | some (JVal.jarr _) => true
  | some (JVal.jobj _) => true

/-- JS read of `.length` on a *defined* value: throws on `null`, the string or
array length otherwise, `undefined` (`none`) for other values. -/
def jsLenVal : JVal → Except Unit (Option Nat)
  | JVal.jnull => Except.error ()
  | JVal.jstr s => Except.ok (some s.length)
  | JVal.jarr xs => Except.ok (some xs.length)
  | _ => Except.ok none

/-- JS comparison `x > m` where `x` may be `undefined` (then `false`). -/
def jsGTnum : Option Nat → Nat → Bool
  | none, _ => false
  | some n, m => n > m

/-- JS strict equality `x === "s"` where `x` may be `undefined`. -/
def jsStrictEqStr : Option JVal → String → Bool
  | some (JVal.jstr s), t => s == t
  | _, _ => false

/-- `rooms[roomId]?.forEach(client => if OPEN then client.ws.send(ev))`:
the broadcast pattern shared by all room-wide sends (server.js lines
271-275, 295-299, 316-320).  `env w = true` models
`ws.readyState === WebSocket.OPEN`. -/
def broadcastToRoom (env : Nat → Bool) (st : ServerState) (roomId : String)
    (ev : WireEvent) : List Effect :=
  ((alookup st.rooms roomId).getD []).filterMap
    (fun c => if env c.wsId then some (Effect.unicast c.wsId ev) else none)

/-- `broadcastUserList` (server.js lines 264-276). -/
def broadcastUserList (env : Nat → Bool) (st : ServerState) (roomId : String) :
    List Effect :=
  let users := ((alookup st.rooms roomId).getD []).map (fun c => c.nick)
  broadcastToRoom env st roomId (WireEvent.userList users)

/-- `broadcastSystemMessage` (server.js lines 309-321). -/
def broadcastSystemMessage (env : Nat → Bool) (st : ServerState)
    (roomId text : String) (now : Nat) : List Effect :=
  broadcastToRoom env st roomId (WireEvent.system text now)

/-- `broadcastTypingStatus` (server.js lines 279-300): ensures the room's
typing set exists, adds or removes `typingUser`, then broadcasts the updated
set to all open clients of the room. -/
def broadcastTypingStatus (env : Nat → Bool) (st : ServerState)
    (roomId typingUser : String) (isTyping : Bool) : ServerState × List Effect :=
  let ts := (alookup st.typingUsers roomId).getD []
  let ts' := if isTyping then setAdd ts typingUser else setDel ts typingUser
  let st' := { st with typingUsers := aset st.typingUsers roomId ts' }
  (st', broadcastToRoom env st' roomId (WireEvent.typing ts'))

/-- `messageBuffers[roomId].push(message); if (length > MAX_MESSAGES) shift()`
(server.js lines 458-461). -/
def appendMessage (buf : List Message) (m : Message) : List Message :=
  let b := buf ++ [m]
  if b.length > MAX_MESSAGES then b.tail else b

/-- The accepted-chat-message path of the message handler (server.js lines
445-473): clear the sender from the typing set (guarded on the typing map
having the room key), append to the room's buffer, broadcast the `message`
event.  The third component records whether a JS exception was thrown
(`messageBuffers[roomId].push` and `rooms[roomId].forEach` both throw when the
key is absent); state and effects up to the throw point are retained, as the
mutations have already happened when the exception propagates to the catch. -/
def chatAccept (env : Nat → Bool) (st : ServerState) (roomId nick : String)
    (now : Nat) (text : JVal) : ServerState × List Effect × Bool :=
  let step1 : ServerState × List Effect :=
    match alookup st.typingUsers roomId with
    | none => (st, [])
    | some ts =>
      let stA := { st with typingUsers := aset st.typingUsers roomId (setDel ts nick) }
      broadcastTypingStatus env stA roomId nick false
  let st1 := step1.1
  let effs1 := step1.2
  let msg : Message := { nick := nick, text := text, timestamp := now }
  match alookup st1.messageBuffers roomId with
  | none => (st1, effs1, true)
  | some buf =>
    let st2 := { st1 with
      messageBuffers := aset st1.messageBuffers roomId (appendMessage buf msg) }
    match alookup st2.rooms roomId with
    | none => (st2, effs1, true)
    | some cs =>
      let effs2 := cs.filterMap (fun c =>
        if env c.wsId then
          some (Effect.unicast c.wsId (WireEvent.message nick text now))
        else none)
      (st2, effs1 ++ effs2, false)

/-- Dispatch on the parsed inbound value `messageObj` (server.js lines
423-474): the typing branch, the chat branch with its length check, or —
when `type` is neither `"typing"` nor `"message"` — no action at all.  The
third component records a thrown JS exception (`messageObj.type` on `null`,
or `text.length` on `undefined`/`null`). -/
def processParsed (env : Nat → Bool) (st : ServerState) (roomId nick : String)
    (wsId now : Nat) (messageObj : JVal) : ServerState × List Effect × Bool :=
  match jsMember messageObj "type" with
  | Except.error _ => (st, [], true)
  | Except.ok ty =>
    if jsStrictEqStr ty "typing" then
      match jsMember messageObj "isTyping" with
      | Except.error _ => (st, [], true)
      | Except.ok isT =>
        let r := broadcastTypingStatus env st roomId nick (jsTruthy isT)
        (r.1, r.2, false)
    else if jsStrictEqStr ty "message" then
      match jsMember messageObj "text" with
      | Except.error _ => (st, [], true)
      | Except.ok none => (st, [], true)
      | Except.ok (some t) =>
        match jsLenVal t with
        | Except.error _ => (st, [], true)
        | Except.ok len =>
          if jsGTnum len 500 then
            (st, [Effect.unicast wsId
              (WireEvent.error "Message too long (max 500 characters)")], false)
          else
            chatAccept env st roomId nick now t
    else
      (st, [], false)

/-- An inbound transport payload, split by whether its trimmed text parses as
JSON (`JSON.parse` at server.js line 417): `jsonVal v` is a payload whose
trimmed text parses to the value `v`; `plain raw` is one whose trimmed text
does not parse (the catch at lines 418-421 then wraps it as a chat object). -/
inductive InPayload where
  | plain (raw : String)
  | jsonVal (v : JVal)

/-- The try-block of the `ws.on("message")` handler (server.js lines 409-474):
trim, drop empty payloads, parse (a parse failure wraps the payload as a chat
object, lines 418-421), dispatch.  The `Bool` records a thrown exception. -/
def handleMessageCore (env : Nat → Bool) (st : ServerState) (roomId nick : String)
    (wsId now : Nat) (d : InPayload) : ServerState × List Effect × Bool :=
  match d with
  | InPayload.plain raw =>
    let rawData := jsTrim raw
    if rawData == "" then (st, [], false)
    else
      processParsed env st roomId nick wsId now
        (JVal.jobj [("type", JVal.jstr "message"), ("text", JVal.jstr rawData)])
  | InPayload.jsonVal v => processParsed env st roomId nick wsId now v

/-- The `ws.on("message")` handler of the canonical variant (server.js lines
408-484): the try-block, with any exception caught and answered with a unicast
`error "Error processing message"` (lines 475-483), keeping whatever state
mutations and sends preceded the throw. -/
def handleMessage (env : Nat → Bool) (st : ServerState) (roomId nick : String)
    (wsId now : Nat) (d : InPayload) : ServerState × List Effect :=
  let r := handleMessageCore env st roomId nick wsId now d
  if r.2.2 then
    (r.1, r.2.1 ++ [Effect.unicast wsId (WireEvent.error "Error processing message")])
  else
    (r.1, r.2.1)

/-- `cleanupUserConnections` (server.js lines 251-261): drop from the room's
list every client with the given nick whose connection is not open. -/
def cleanupUserConnections (env : Nat → Bool) (st : ServerState)
    (roomId nick : String) : ServerState :=
  match alookup st.rooms roomId with
  | none => st
  | some cs =>
    let cs' := cs.filter (fun c => !(c.nick == nick && !env c.wsId))
    { st with rooms := aset st.rooms roomId cs' }

/-- The synchronous body of `wss.on("connection")` (server.js lines 323-535):
query-parameter validation, lazy room initialization, stale-connection
cleanup, duplicate-nick rejection, registration, and the join-time sends in
code order — `history`, `userList`, `typing` snapshot, `system` join notice,
and finally (line 529) the `connected` confirmation.  `roomIdQ`/`nickQ` model
`url.searchParams.get` (absent parameter = `none`; the code's `!roomId`
test also rejects the empty string). -/
def handleConnection (env : Nat → Bool) (st : ServerState)
    (roomIdQ nickQ : Option String) (wsId now : Nat) : ServerState × List Effect :=
  match roomIdQ, nickQ with
  | some roomId, some nick =>
    if roomId == "" || nick == "" then
      (st, [Effect.closeConn wsId 1008 "Room and nick are required"])
    else
      let st0 : ServerState :=
        match alookup st.rooms roomId with
        | some _ => st
        | none =>
          { rooms := aset st.rooms roomId [],
            messageBuffers := aset st.messageBuffers roomId [],
            typingUsers := aset st.typingUsers roomId [] }
      let st1 := cleanupUserConnections env st0 roomId nick
      let cs1 := (alookup st1.rooms roomId).getD []
      match cs1.find? (fun c => c.nick == nick && env c.wsId) with
      | some _ =>
        (st1, [Effect.unicast wsId
                 (WireEvent.error "Nickname already taken in this room"),
               Effect.closeConn wsId 1008 "Nickname already taken"])
      | none =>
        let newClient : Client :=
          { wsId := wsId, nick := nick, roomId := roomId, joinedAt := now }
        let st2 := { st1 with rooms := aset st1.rooms roomId (cs1 ++ [newClient]) }
        let histEff := Effect.unicast wsId
          (WireEvent.history ((alookup st2.messageBuffers roomId).getD []))
        let ulEffs := broadcastUserList env st2 roomId
        let typEff := Effect.unicast wsId
          (WireEvent.typing ((alookup st2.typingUsers roomId).getD []))
        let sysEffs := broadcastSystemMessage env st2 roomId
          (nick ++ " joined the room") now
        let connEff := Effect.unicast wsId
          (WireEvent.connected "Successfully connected to the room")
        (st2, histEff :: (ulEffs ++ (typEff :: (sysEffs ++ [connEff]))))
  | _, _ => (st, [Effect.closeConn wsId 1008 "Room and nick are required"])

/-- The `ws.on("close")` handler (server.js lines 487-519): remove the client
from the room, clear its nick from the typing set (with a typing broadcast),
send the leave notice and user list if members remain, and delete the room,
its buffer and its typing set if the room is now empty. -/
def handleClose (env : Nat → Bool) (st : ServerState) (roomId nick : String)
    (wsId now : Nat) : ServerState × List Effect :=
  match alookup st.rooms roomId with
  | none => (st, [])
  | some cs =>
    let cs' := cs.filter (fun c => c.wsId ≠ wsId)
    let st1 := { st with rooms := aset st.rooms roomId cs' }
    let step2 : ServerState × List Effect :=
      match alookup st1.typingUsers roomId with
      | none => (st1, [])
      | some ts =>
        let stA := { st1 with
          typingUsers := aset st1.typingUsers roomId (setDel ts nick) }
        broadcastTypingStatus env stA roomId nick false
    let st2 := step2.1
    let effs1 := step2.2
    let effs2 :=
      if cs'.length > 0 then
        broadcastSystemMessage env st2 roomId (nick ++ " left the room") now
          ++ broadcastUserList env st2 roomId
      else []
    let st3 :=
      if cs'.length == 0 then
        { rooms := aerase st2.rooms roomId,
          messageBuffers := aerase st2.messageBuffers roomId,
          typingUsers := aerase st2.typingUsers roomId }
      else st2
    (st3, effs1 ++ effs2)

/-- One room's share of the 15-second periodic cleanup (server.js lines
538-572): re-filter the client list to open connections; when that changes
anything, either delete the now-empty room (with buffer and typing set) or
rebroadcast the user list and prune typing entries of departed nicks. -/
def sweepRoom (env : Nat → Bool) (st : ServerState) (roomId : String) :
    ServerState × List Effect :=
  match alookup st.rooms roomId with
  | none => (st, [])
  | some cs =>
    let active := cs.filter (fun c => env c.wsId)
    if active.length ≠ cs.length then
      let st1 := { st with rooms := aset st.rooms roomId active }
      if active.length == 0 then
        ({ rooms := aerase st1.rooms roomId,
           messageBuffers := aerase st1.messageBuffers roomId,
           typingUsers := aerase st1.typingUsers roomId }, [])
      else
        let effs := broadcastUserList env st1 roomId
        let st2 :=
          match alookup st1.typingUsers roomId with
          | none => st1
          | some ts =>
            let connected := active.map (fun c => c.nick)
            let ts' := ts.filter (fun u => u ∈ connected)
            { st1 with typingUsers := aset st1.typingUsers roomId ts' }
        (st2, effs)
    else (st, [])

/-! ### Basic lemmas about the association-list and set operations -/

theorem alookup_aset_self {α : Type} (m : List (String × α)) (k : String) (v : α) :
    alookup (aset m k v) k = some v := by
  induction m with
  | nil => simp [aset, alookup]
  | cons p rest ih =>
    by_cases h : p.1 = k
    · simp [aset, h, alookup]
    · simp [aset, h, alookup, ih]

theorem alookup_aset_ne {α : Type} (m : List (String × α)) (k k' : String) (v : α)
    (h : k ≠ k') : alookup (aset m k v) k' = alookup m k' := by
  induction m with
  | nil => simp [aset, alookup, h]
  | cons p rest ih =>
    by_cases hp : p.1 = k
    · simp [aset, hp, alookup, h]
    · simp [aset, hp, alookup, ih]

theorem aset_aset {α : Type} (m : List (String × α)) (k : String) (v v' : α) :
    aset (aset m k v) k v' = aset m k v' := by
  induction m with
  | nil => simp [aset]
  | cons p rest ih =>
    by_cases h : p.1 = k
    · simp [aset, h]
    · simp [aset, h, ih]

theorem alookup_aerase_self {α : Type} (m : List (String × α)) (k : String) :
    alookup (aerase m k) k = none := by
  induction m with
  | nil => simp [aerase, alookup]
  | cons p rest ih =>
    by_cases h : p.1 = k
    · simpa [aerase, h] using ih
    · simpa [aerase, h, alookup] using ih

theorem mem_setAdd_iff (s : List String) (x y : String) :
    y ∈ setAdd s x ↔ y ∈ s ∨ y = x := by
  unfold setAdd
  by_cases h : x ∈ s
  · simp only [if_pos h]
    constructor
    · exact fun hy => Or.inl hy
    · rintro (hy | rfl)
      · exact hy
      · exact h
  · simp [if_neg h]

theorem mem_setDel_iff (s : List String) (x y : String) :
    y ∈ setDel s x ↔ y ∈ s ∧ y ≠ x := by
  simp [setDel, List.mem_filter, decide_eq_true_eq]

theorem not_mem_setDel_self (s : List String) (x : String) : x ∉ setDel s x := by
  simp [mem_setDel_iff]

/-- A non-`null` JS value never throws on property access. -/
theorem jsMember_ok_of_ok (k' : String) {v : JVal} {k : String} {t : Option JVal}
    (h : jsMember v k = Except.ok t) : ∃ u, jsMember v k' = Except.ok u := by
  cases v with
  | jnull => simp [jsMember] at h
  | jobj fs => exact ⟨alookup fs k', rfl⟩
  | jbool b => exact ⟨none, rfl⟩
  | jnum n => exact ⟨none, rfl⟩
  | jstr s => exact ⟨none, rfl⟩
  | jarr xs => exact ⟨none, rfl⟩

/-- Every effect emitted by `broadcastToRoom` is a unicast of the given event. -/
theorem mem_broadcastToRoom {env : Nat → Bool} {st : ServerState}
    {roomId : String} {ev : WireEvent} {e : Effect}
    (h : e ∈ broadcastToRoom env st roomId ev) :
    ∃ u, e = Effect.unicast u ev := by
  unfold broadcastToRoom at h
  rw [List.mem_filterMap] at h
  obtain ⟨c, _, hc⟩ := h
  by_cases hw : env c.wsId
  · refine ⟨c.wsId, ?_⟩
    rw [if_pos hw] at hc
    exact (Option.some.injEq _ _ ▸ hc).symm
  · rw [if_neg hw] at hc
    cases hc

/-! ### Concrete fixtures used by witnesses and counterexamples -/

/-- Environment in which connections 1, 2 and 3 are OPEN and all others are
not. -/
def envOpen123 : Nat → Bool := fun w => w == 1 || w == 2 || w == 3

/-- An open client `"a"` on connection 1 in room `"r"`. -/
def clientA : Client := { wsId := 1, nick := "a", roomId := "r", joinedAt := 0 }

/-- A stale (non-open) entry for nick `"a"` on connection 9 in room `"r"`. -/
def clientStaleA : Client := { wsId := 9, nick := "a", roomId := "r", joinedAt := 0 }

/-- A room `"r"` holding just the open client `"a"`, with empty history and
empty typing set. -/
def stR : ServerState :=
  { rooms := [("r", [clientA])],
    messageBuffers := [("r", [])],
    typingUsers := [("r", [])] }

/-- The empty server state. -/
def stEmpty : ServerState := { rooms := [], messageBuffers := [], typingUsers := [] }

/-- A fixed sample message for list fixtures. -/
def msgW : Message := { nick := "a", text := JVal.jstr "hi", timestamp := 0 }

/-! ### Claim theorems -/

/-- Appending to a buffer of at most 50 entries leaves at most 50 entries. -/
theorem appendMessage_length_le (buf : List Message) (m : Message)
    (h : buf.length ≤ 50) : (appendMessage buf m).length ≤ 50 := by
  unfold appendMessage MAX_MESSAGES
  dsimp only
  split
  · simp only [List.length_tail, List.length_append, List.length_cons, List.length_nil]
    omega
  · next h =>
    simp only [List.length_append, List.length_cons, List.length_nil] at h ⊢
    omega

/-- Claim C3: the history buffer never exceeds 50 entries under any sequence
of appends, and eviction is FIFO from the front: appending to a full buffer
of 50 drops the first entry, making the former second entry first and keeping
the relative order of the rest. -/
theorem history_capacity_fifo (buf buf2 : List Message) (m m2 : Message)
    (ms : List Message)
    (h1 : buf.length ≤ 50) (h2 : buf2.length = 50) :
    (appendMessage buf m).length ≤ 50 ∧
    appendMessage buf2 m2 = buf2.tail ++ [m2] ∧
    (List.foldl appendMessage [] ms).length ≤ 50 := by
  refine ⟨appendMessage_length_le buf m h1, ?_, ?_⟩
  · cases buf2 with
    | nil => simp at h2
    | cons a t =>
      unfold appendMessage MAX_MESSAGES
      simp only [List.length_cons] at h2
      simp only [List.cons_append, List.tail_cons]
      split
      · rfl
      · next h =>
        simp only [List.length_cons, List.length_append, List.length_nil] at h
        omega
  · have aux : ∀ (l : List Message) (init : List Message), init.length ≤ 50 →
        (List.foldl appendMessage init l).length ≤ 50 := by
      intro l
      induction l with
      | nil => intro init h; simpa using h
      | cons x xs ih =>
        intro init h
        exact ih (appendMessage init x) (appendMessage_length_le init x h)
    exact aux ms [] (by simp)

/-- Room `"r"` holding a stale entry for `"a"` (connection 9, not open) in
front of the open client `"a"` (connection 1). -/
def stDup : ServerState :=
  { rooms := [("r", [clientStaleA, clientA])],
    messageBuffers := [("r", [])],
    typingUsers := [("r", [])] }

/-- Claim C1 as stated is false: the non-empty payload `{"type":"x","text":"hi"}`
does not parse as the typing-control shape, yet it is not treated as chat text
either — the handler produces no effect and leaves the state (history
included) unchanged, silently discarding it. -/
theorem c1_unknown_type_silently_dropped_cex :
    handleMessage envOpen123 stR "r" "a" 1 5
      (InPayload.jsonVal
        (JVal.jobj [("type", JVal.jstr "x"), ("text", JVal.jstr "hi")]))
      = (stR, []) ∧
    jsStrictEqStr (some (JVal.jstr "x")) "typing" = false ∧
    jsStrictEqStr (some (JVal.jstr "x")) "message" = false :=
  ⟨rfl, rfl, rfl⟩

/-- Claim C2 as stated is false: the chat payload
`{"type":"message","text":"   "}` has text that is empty after trimming, yet
it is appended to History and broadcast, with the text stored untrimmed. -/
theorem c2_whitespace_json_text_stored_cex :
    handleMessage envOpen123 stR "r" "a" 1 5
      (InPayload.jsonVal
        (JVal.jobj [("type", JVal.jstr "message"), ("text", JVal.jstr "   ")]))
      = ({ rooms := [("r", [clientA])],
           messageBuffers :=
             [("r", [{ nick := "a", text := JVal.jstr "   ", timestamp := 5 }])],
           typingUsers := [("r", [])] },
         [Effect.unicast 1 (WireEvent.typing []),
          Effect.unicast 1 (WireEvent.message "a" (JVal.jstr "   ") 5)]) ∧
    jsTrim "   " = "" :=
  ⟨rfl, rfl⟩

/-- Claim C4 as stated is false in its frame condition: when room `"r"` holds
a stale (closed) entry for nick `"a"` besides the open one, the rejected join
of a second `"a"` does mutate the room's client list — the stale entry is
removed by the pre-check cleanup (the rejection itself is as claimed). -/
theorem c4_reject_mutates_stale_entries_cex :
    handleConnection envOpen123 stDup (some "r") (some "a") 3 9
      = ({ rooms := [("r", [clientA])],
           messageBuffers := [("r", [])],
           typingUsers := [("r", [])] },
         [Effect.unicast 3 (WireEvent.error "Nickname already taken in this room"),
          Effect.closeConn 3 1008 "Nickname already taken"]) ∧
    (handleConnection envOpen123 stDup (some "r") (some "a") 3 9).1.rooms
      ≠ stDup.rooms :=
  ⟨rfl, by decide⟩

/-- Claim C6 as stated is false: on a successful join the `connected`
acknowledgment is the last join-time event, not the first — the first is the
`history` snapshot. -/
theorem c6_connected_sent_last_cex :
    (handleConnection envOpen123 stEmpty (some "r") (some "a") 1 0).2 =
      [Effect.unicast 1 (WireEvent.history []),
       Effect.unicast 1 (WireEvent.userList ["a"]),
       Effect.unicast 1 (WireEvent.typing []),
       Effect.unicast 1 (WireEvent.system "a joined the room" 0),
       Effect.unicast 1 (WireEvent.connected "Successfully connected to the room")] ∧
    (handleConnection envOpen123 stEmpty (some "r") (some "a") 1 0).2.head? =
      some (Effect.unicast 1 (WireEvent.history [])) ∧
    Effect.unicast 1 (WireEvent.history [])
      ≠ Effect.unicast 1 (WireEvent.connected "Successfully connected to the room") :=
  ⟨rfl, rfl, by simp⟩

/-- Witness for C3 at a concrete full buffer of 50 messages. -/
theorem history_capacity_fifo_witness :
    (([] : List Message).length ≤ 50 ∧ (List.replicate 50 msgW).length = 50) ∧
    ((appendMessage [] msgW).length ≤ 50 ∧
     appendMessage (List.replicate 50 msgW) msgW =
       (List.replicate 50 msgW).tail ++ [msgW] ∧
     (List.foldl appendMessage [] (List.replicate 60 msgW)).length ≤ 50) :=
  ⟨⟨by simp, by simp⟩,
   history_capacity_fifo [] (List.replicate 50 msgW) msgW msgW
     (List.replicate 60 msgW) (by simp) (by simp)⟩

/-- The typing branch of the message handler changes the typing set only at
the sender's nick, leaves rooms and buffers alone, and emits only `typing`
broadcasts. -/
theorem typing_branch_frame (env : Nat → Bool) (st : ServerState)
    (roomId nick : String) (wsId now : Nat) (v : JVal) (tyv isT : Option JVal)
    (hTy : jsMember v "type" = Except.ok tyv)
    (hTyping : jsStrictEqStr tyv "typing" = true)
    (hIsT : jsMember v "isTyping" = Except.ok isT) :
    (handleMessage env st roomId nick wsId now (InPayload.jsonVal v)).1.rooms
      = st.rooms ∧
    (handleMessage env st roomId nick wsId now (InPayload.jsonVal v)).1.messageBuffers
      = st.messageBuffers ∧
    (∀ m : String, m ≠ nick →
      (m ∈ (alookup (handleMessage env st roomId nick wsId now
              (InPayload.jsonVal v)).1.typingUsers roomId).getD [] ↔
       m ∈ (alookup st.typingUsers roomId).getD [])) ∧
    (nick ∈ (alookup (handleMessage env st roomId nick wsId now
              (InPayload.jsonVal v)).1.typingUsers roomId).getD []
      ↔ jsTruthy isT = true) ∧
    (∀ e ∈ (handleMessage env st roomId nick wsId now (InPayload.jsonVal v)).2,
      ∃ u ts, e = Effect.unicast u (WireEvent.typing ts)) := by
  have hcore : handleMessage env st roomId nick wsId now (InPayload.jsonVal v)
      = ((broadcastTypingStatus env st roomId nick (jsTruthy isT)).1,
         (broadcastTypingStatus env st roomId nick (jsTruthy isT)).2) := by
    simp only [handleMessage, handleMessageCore, processParsed, hTy, hTyping,
      if_true, hIsT]
    simp
  rw [hcore]
  unfold broadcastTypingStatus
  refine ⟨rfl, rfl, ?_, ?_, ?_⟩
  · intro m hm
    simp only [alookup_aset_self, Option.getD_some]
    split
    · rw [mem_setAdd_iff]; tauto
    · rw [mem_setDel_iff]; tauto
  · simp only [alookup_aset_self, Option.getD_some]
    split
    · next h => rw [mem_setAdd_iff]; simp [h]
    · next h => rw [mem_setDel_iff]; simp [h]
  · intro e he
    obtain ⟨u, hu⟩ := mem_broadcastToRoom he
    exact ⟨u, _, hu⟩

/-- Claim C10: a typing-control payload received on a connection registered
with identity `nick` changes the room's typing set only at `nick` — every
other identity's membership is untouched, `nick` ends up in the set exactly
when the payload's `isTyping` field is truthy, the room's client list and
History are unchanged, and every emitted effect is a `typing` broadcast. -/
theorem typing_payload_frame (env : Nat → Bool) (st : ServerState)
    (roomId nick : String) (wsId now : Nat) (v : JVal) (tyv isT : Option JVal)
    (hTy : jsMember v "type" = Except.ok tyv)
    (hTyping : jsStrictEqStr tyv "typing" = true)
    (hIsT : jsMember v "isTyping" = Except.ok isT) :
    (handleMessage env st roomId nick wsId now (InPayload.jsonVal v)).1.rooms
      = st.rooms ∧
    (handleMessage env st roomId nick wsId now (InPayload.jsonVal v)).1.messageBuffers
      = st.messageBuffers ∧
    (∀ m : String, m ≠ nick →
      (m ∈ (alookup (handleMessage env st roomId nick wsId now
              (InPayload.jsonVal v)).1.typingUsers roomId).getD [] ↔
       m ∈ (alookup st.typingUsers roomId).getD [])) ∧
    (nick ∈ (alookup (handleMessage env st roomId nick wsId now
              (InPayload.jsonVal v)).1.typingUsers roomId).getD []
      ↔ jsTruthy isT = true) ∧
    (∀ e ∈ (handleMessage env st roomId nick wsId now (InPayload.jsonVal v)).2,
      ∃ u ts, e = Effect.unicast u (WireEvent.typing ts)) :=
  typing_branch_frame env st roomId nick wsId now v tyv isT hTy hTyping hIsT

/-- The typing-control payload `{"type":"typing","isTyping":true}`. -/
def vTypingTrue : JVal :=
  JVal.jobj [("type", JVal.jstr "typing"), ("isTyping", JVal.jbool true)]

/-- Witness for C10: sending `{"type":"typing","isTyping":true}` as `"a"` in
room `"r"` puts `"a"` in the typing set. -/
theorem typing_payload_frame_witness :
    "a" ∈ (alookup (handleMessage envOpen123 stR "r" "a" 1 5
        (InPayload.jsonVal vTypingTrue)).1.typingUsers "r").getD [] ↔
      jsTruthy (some (JVal.jbool true)) = true :=
  (typing_payload_frame envOpen123 stR "r" "a" 1 5 vTypingTrue
    (some (JVal.jstr "typing")) (some (JVal.jbool true)) rfl rfl rfl).2.2.2.1

/-- Claim C1, amended: an inbound payload is dispatched by the parse result —
a JSON payload whose `type` field is the string `"typing"` produces only a
typing broadcast (client list and history untouched); a payload that does not
parse as JSON is funneled through the chat path with its trimmed text taken
verbatim as the `text` field; but a JSON payload whose `type` is neither
`"typing"` nor `"message"` (and which is not `null`) is silently discarded:
no effect, no state change. -/
theorem inbound_payload_dispatch (env : Nat → Bool) (st : ServerState)
    (roomId nick : String) (wsId now : Nat) (v w : JVal) (raw : String)
    (tyv tyw : Option JVal)
    (hVt : jsMember v "type" = Except.ok tyv)
    (hV1 : jsStrictEqStr tyv "typing" = false)
    (hV2 : jsStrictEqStr tyv "message" = false)
    (hWt : jsMember w "type" = Except.ok tyw)
    (hW1 : jsStrictEqStr tyw "typing" = true)
    (hraw : jsTrim raw ≠ "") :
    handleMessage env st roomId nick wsId now (InPayload.jsonVal v) = (st, []) ∧
    handleMessage env st roomId nick wsId now (InPayload.plain raw) =
      handleMessage env st roomId nick wsId now
        (InPayload.jsonVal (JVal.jobj
          [("type", JVal.jstr "message"), ("text", JVal.jstr (jsTrim raw))])) ∧
    (handleMessage env st roomId nick wsId now (InPayload.jsonVal w)).1.rooms
      = st.rooms ∧
    (handleMessage env st roomId nick wsId now (InPayload.jsonVal w)).1.messageBuffers
      = st.messageBuffers ∧
    (∀ e ∈ (handleMessage env st roomId nick wsId now (InPayload.jsonVal w)).2,
      ∃ u ts, e = Effect.unicast u (WireEvent.typing ts)) := by
  obtain ⟨isT, hIsT⟩ := jsMember_ok_of_ok "isTyping" hWt
  have frame := typing_branch_frame env st roomId nick wsId now w tyw isT
    hWt hW1 hIsT
  refine ⟨?_, ?_, frame.1, frame.2.1, frame.2.2.2.2⟩
  · simp only [handleMessage, handleMessageCore, processParsed, hVt, hV1, hV2]
    simp
  · have hcoreEq : handleMessageCore env st roomId nick wsId now (InPayload.plain raw)
        = handleMessageCore env st roomId nick wsId now
            (InPayload.jsonVal (JVal.jobj
              [("type", JVal.jstr "message"), ("text", JVal.jstr (jsTrim raw))])) := by
      simp only [handleMessageCore]
      rw [if_neg]
      simpa using hraw
    simp only [handleMessage, hcoreEq]

/-- Witness for C1: `{"type":"x"}` is silently discarded, and the bare
payload `" hi "` is handled exactly like the chat object on its trimmed
text. -/
theorem inbound_payload_dispatch_witness :
    handleMessage envOpen123 stR "r" "a" 1 5
      (InPayload.jsonVal (JVal.jobj [("type", JVal.jstr "x")])) = (stR, []) ∧
    handleMessage envOpen123 stR "r" "a" 1 5 (InPayload.plain " hi ") =
      handleMessage envOpen123 stR "r" "a" 1 5
        (InPayload.jsonVal (JVal.jobj
          [("type", JVal.jstr "message"), ("text", JVal.jstr (jsTrim " hi "))])) := by
  have h := inbound_payload_dispatch envOpen123 stR "r" "a" 1 5
    (JVal.jobj [("type", JVal.jstr "x")]) vTypingTrue " hi "
    (some (JVal.jstr "x")) (some (JVal.jstr "typing"))
    rfl rfl rfl rfl rfl (by decide)
  exact ⟨h.1, h.2.1⟩

/-- The accepted-chat path, for a session whose room has a live buffer and
client list: it never throws, leaves the client list alone, appends exactly
the sent message to the room's buffer, removes the sender from the typing
set, and emits typing broadcasts (none naming the sender) followed by the
room-wide `message` broadcast. -/
theorem chatAccept_spec (env : Nat → Bool) (st : ServerState)
    (roomId nick : String) (now : Nat) (t : JVal)
    (buf : List Message) (cs : List Client)
    (hBuf : alookup st.messageBuffers roomId = some buf)
    (hRooms : alookup st.rooms roomId = some cs) :
    (chatAccept env st roomId nick now t).2.2 = false ∧
    (chatAccept env st roomId nick now t).1.rooms = st.rooms ∧
    alookup (chatAccept env st roomId nick now t).1.messageBuffers roomId
      = some (appendMessage buf { nick := nick, text := t, timestamp := now }) ∧
    nick ∉ (alookup (chatAccept env st roomId nick now t).1.typingUsers roomId).getD [] ∧
    (∃ tEffs, (chatAccept env st roomId nick now t).2.1 =
        tEffs ++ cs.filterMap (fun c =>
          if env c.wsId then
            some (Effect.unicast c.wsId (WireEvent.message nick t now))
          else none) ∧
      ∀ e ∈ tEffs, ∃ w ts, e = Effect.unicast w (WireEvent.typing ts) ∧ nick ∉ ts) := by
  unfold chatAccept broadcastTypingStatus
  cases hT : alookup st.typingUsers roomId with
  | none =>
    simp only [hT, hBuf, hRooms, Option.getD_some]
    refine ⟨trivial, trivial, by simp [alookup_aset_self], by simp [hT], ?_⟩
    exact ⟨[], by simp, by simp⟩
  | some ts =>
    simp only [hT, hBuf, hRooms, Option.getD_some, alookup_aset_self]
    refine ⟨trivial, trivial, by simp [alookup_aset_self], ?_, ?_⟩
    · simp [alookup_aset_self, mem_setDel_iff]
    · refine ⟨_, rfl, ?_⟩
      intro e he
      obtain ⟨u, hu⟩ := mem_broadcastToRoom he
      exact ⟨u, _, hu, not_mem_setDel_self _ _⟩

/-- The chat branch of the dispatch: a JSON object with `type:"message"` and a
string `text` goes through the length check (on the raw, untrimmed text) and
then the accept path. -/
theorem processParsed_chat (env : Nat → Bool) (st : ServerState)
    (roomId nick : String) (wsId now : Nat) (t : String) :
    processParsed env st roomId nick wsId now
      (JVal.jobj [("type", JVal.jstr "message"), ("text", JVal.jstr t)])
      = if t.length > 500 then
          (st, [Effect.unicast wsId
            (WireEvent.error "Message too long (max 500 characters)")], false)
        else chatAccept env st roomId nick now (JVal.jstr t) := by
  have e1 : jsMember (JVal.jobj [("type", JVal.jstr "message"), ("text", JVal.jstr t)])
      "type" = Except.ok (some (JVal.jstr "message")) := rfl
  have e2 : jsMember (JVal.jobj [("type", JVal.jstr "message"), ("text", JVal.jstr t)])
      "text" = Except.ok (some (JVal.jstr t)) := rfl
  have f1 : jsStrictEqStr (some (JVal.jstr "message")) "typing" = false := rfl
  have f2 : jsStrictEqStr (some (JVal.jstr "message")) "message" = true := rfl
  have f3 : jsLenVal (JVal.jstr t) = Except.ok (some t.length) := rfl
  simp only [processParsed, e1, e2, f1, f2, f3, Bool.false_eq_true, if_false, if_true]
  by_cases hL : t.length > 500
  · rw [if_pos (by simpa [jsGTnum] using hL), if_pos hL]
  · rw [if_neg (by simpa [jsGTnum] using hL), if_neg hL]

/-- Claim C2, amended: a bare-text chat payload is trimmed, silently dropped
when empty after trimming, rejected with exactly one unicast error (and no
state change) when its trimmed text exceeds 500 characters, and otherwise
accepted with the trimmed text stored; a JSON-shaped chat payload takes the
same accept/reject paths but on its `text` field *untrimmed* (so whitespace-
only text is stored as-is); an accepted message is appended verbatim to the
room's History and broadcast to the room's open clients. -/
theorem chat_length_validation (env : Nat → Bool) (st : ServerState)
    (roomId nick : String) (wsId now : Nat) (raw raw0 s u : String)
    (buf : List Message) (cs : List Client)
    (hBuf : alookup st.messageBuffers roomId = some buf)
    (hRooms : alookup st.rooms roomId = some cs)
    (hNE : jsTrim raw ≠ "")
    (hE : jsTrim raw0 = "") :
    handleMessage env st roomId nick wsId now (InPayload.plain raw0) = (st, []) ∧
    handleMessage env st roomId nick wsId now (InPayload.plain raw) =
      (if (jsTrim raw).length > 500 then
        (st, [Effect.unicast wsId
          (WireEvent.error "Message too long (max 500 characters)")])
      else
        ((chatAccept env st roomId nick now (JVal.jstr (jsTrim raw))).1,
         (chatAccept env st roomId nick now (JVal.jstr (jsTrim raw))).2.1)) ∧
    handleMessage env st roomId nick wsId now
        (InPayload.jsonVal (JVal.jobj
          [("type", JVal.jstr "message"), ("text", JVal.jstr s)])) =
      (if s.length > 500 then
        (st, [Effect.unicast wsId
          (WireEvent.error "Message too long (max 500 characters)")])
      else
        ((chatAccept env st roomId nick now (JVal.jstr s)).1,
         (chatAccept env st roomId nick now (JVal.jstr s)).2.1)) ∧
    alookup (chatAccept env st roomId nick now (JVal.jstr u)).1.messageBuffers roomId
      = some (appendMessage buf { nick := nick, text := JVal.jstr u, timestamp := now }) ∧
    (∃ tEffs, (chatAccept env st roomId nick now (JVal.jstr u)).2.1 =
        tEffs ++ cs.filterMap (fun c =>
          if env c.wsId then
            some (Effect.unicast c.wsId (WireEvent.message nick (JVal.jstr u) now))
          else none) ∧
      ∀ e ∈ tEffs, ∃ w ts, e = Effect.unicast w (WireEvent.typing ts) ∧ nick ∉ ts) := by
  have hjson : ∀ tstr : String,
      handleMessage env st roomId nick wsId now
        (InPayload.jsonVal (JVal.jobj
          [("type", JVal.jstr "message"), ("text", JVal.jstr tstr)])) =
      (if tstr.length > 500 then
        (st, [Effect.unicast wsId
          (WireEvent.error "Message too long (max 500 characters)")])
      else
        ((chatAccept env st roomId nick now (JVal.jstr tstr)).1,
         (chatAccept env st roomId nick now (JVal.jstr tstr)).2.1)) := by
    intro tstr
    have hx := processParsed_chat env st roomId nick wsId now tstr
    by_cases hL : tstr.length > 500
    · rw [if_pos hL] at hx
      rw [if_pos hL]
      simp only [handleMessage, handleMessageCore, hx]
      simp
    · rw [if_neg hL] at hx
      rw [if_neg hL]
      have hthrow := (chatAccept_spec env st roomId nick now (JVal.jstr tstr)
        buf cs hBuf hRooms).1
      simp only [handleMessage, handleMessageCore, hx, hthrow]
      simp [hthrow]
  have hcoreEq : handleMessageCore env st roomId nick wsId now (InPayload.plain raw)
      = handleMessageCore env st roomId nick wsId now
          (InPayload.jsonVal (JVal.jobj
            [("type", JVal.jstr "message"), ("text", JVal.jstr (jsTrim raw))])) := by
    simp only [handleMessageCore]
    rw [if_neg]
    simpa using hNE
  have spec := chatAccept_spec env st roomId nick now (JVal.jstr u) buf cs hBuf hRooms
  refine ⟨?_, ?_, hjson s, spec.2.2.1, spec.2.2.2.2⟩
  · simp only [handleMessage, handleMessageCore]
    rw [if_pos (show (jsTrim raw0 == "") = true from by simpa using hE)]
    simp
  · calc handleMessage env st roomId nick wsId now (InPayload.plain raw)
        = handleMessage env st roomId nick wsId now
            (InPayload.jsonVal (JVal.jobj
              [("type", JVal.jstr "message"), ("text", JVal.jstr (jsTrim raw))])) := by
          simp only [handleMessage, hcoreEq]
      _ = _ := hjson (jsTrim raw)

/-- Witness for C2: a whitespace-only bare payload is dropped, and an accepted
message is appended to the buffer. -/
theorem chat_length_validation_witness :
    handleMessage envOpen123 stR "r" "a" 1 5 (InPayload.plain "   ") = (stR, []) ∧
    alookup (chatAccept envOpen123 stR "r" "a" 5 (JVal.jstr "hi")).1.messageBuffers "r"
      = some (appendMessage [] { nick := "a", text := JVal.jstr "hi", timestamp := 5 }) := by
  have h := chat_length_validation envOpen123 stR "r" "a" 1 5 " ok " "   " "x" "hi"
    [] [clientA] rfl rfl (by decide) (by decide)
  exact ⟨h.1, h.2.2.2.1⟩

/-- Claim C4, amended: a join attempt whose room already holds an open client
with the same identity receives the unicast error `"Nickname already taken in
this room"` and is closed with code 1008, reason `"Nickname already taken"`;
the new connection is never registered, History and typing state are
untouched, the open clients of the room are exactly as before, and the only
mutation of the room's client list is the pre-check cleanup dropping stale
(non-open) entries that bear the same identity. -/
theorem duplicate_nick_rejected (env : Nat → Bool) (st : ServerState)
    (roomId nick : String) (wsId now : Nat) (cs : List Client) (c : Client)
    (hRoom : alookup st.rooms roomId = some cs)
    (hcMem : c ∈ cs) (hcNick : c.nick = nick) (hcOpen : env c.wsId = true)
    (hR : roomId ≠ "") (hN : nick ≠ "") :
    (handleConnection env st (some roomId) (some nick) wsId now).2 =
      [Effect.unicast wsId (WireEvent.error "Nickname already taken in this room"),
       Effect.closeConn wsId 1008 "Nickname already taken"] ∧
    alookup (handleConnection env st (some roomId) (some nick) wsId now).1.rooms roomId
      = some (cs.filter (fun c' => !(c'.nick == nick && !env c'.wsId))) ∧
    (handleConnection env st (some roomId) (some nick) wsId now).1.messageBuffers
      = st.messageBuffers ∧
    (handleConnection env st (some roomId) (some nick) wsId now).1.typingUsers
      = st.typingUsers ∧
    (cs.filter (fun c' => !(c'.nick == nick && !env c'.wsId))).filter
        (fun c' => env c'.wsId)
      = cs.filter (fun c' => env c'.wsId) ∧
    (∀ c' ∈ cs.filter (fun c' => !(c'.nick == nick && !env c'.wsId)), c' ∈ cs) := by
  have hcond : (roomId == "" || nick == "") = false := by
    simp [hR, hN]
  have hcf : c ∈ cs.filter (fun c' => !(c'.nick == nick && !env c'.wsId)) := by
    rw [List.mem_filter]
    refine ⟨hcMem, ?_⟩
    simp [hcNick, hcOpen]
  have hfound : ((cs.filter (fun c' => !(c'.nick == nick && !env c'.wsId))).find?
      (fun c' => c'.nick == nick && env c'.wsId)).isSome = true := by
    rw [List.find?_isSome]
    exact ⟨c, hcf, by simp [hcNick, hcOpen]⟩
  obtain ⟨y, hy⟩ := Option.isSome_iff_exists.mp hfound
  have hred : handleConnection env st (some roomId) (some nick) wsId now =
      ({ st with rooms := aset st.rooms roomId (cs.filter (fun c' => !(c'.nick == nick && !env c'.wsId))) },
       [Effect.unicast wsId (WireEvent.error "Nickname already taken in this room"),
        Effect.closeConn wsId 1008 "Nickname already taken"]) := by
    simp only [handleConnection, hcond, Bool.false_eq_true, if_false,
      cleanupUserConnections, hRoom, alookup_aset_self, Option.getD_some, hy]
  rw [hred]
  refine ⟨rfl, alookup_aset_self _ _ _, rfl, rfl, ?_, ?_⟩
  · rw [List.filter_filter]
    refine List.filter_congr ?_
    intro x _
    cases hx : env x.wsId with
    | true => simp [hx]
    | false => simp [hx]
  · intro c' hc'
    exact (List.mem_filter.mp hc').1

/-- Witness for C4 (amended) at the two-entry room `stDup`: the rejection
effects and the cleaned client list. -/
theorem duplicate_nick_rejected_witness :
    (handleConnection envOpen123 stDup (some "r") (some "a") 3 9).2 =
      [Effect.unicast 3 (WireEvent.error "Nickname already taken in this room"),
       Effect.closeConn 3 1008 "Nickname already taken"] ∧
    alookup (handleConnection envOpen123 stDup (some "r") (some "a") 3 9).1.rooms "r"
      = some ([clientStaleA, clientA].filter
          (fun c' => !(c'.nick == "a" && !envOpen123 c'.wsId))) := by
  have h := duplicate_nick_rejected envOpen123 stDup "r" "a" 3 9
    [clientStaleA, clientA] clientA rfl (by decide) rfl rfl
    (by decide) (by decide)
  exact ⟨h.1, h.2.1⟩

/-- The successful-join reduction when the room already exists: no open
same-nick client survives the cleanup, so the connection registers and the
join-time sends fire in code order, ending with the `connected`
confirmation. -/
theorem join_success_eq (env : Nat → Bool) (st : ServerState)
    (roomId nick : String) (wsId now : Nat) (cs : List Client)
    (hRoom : alookup st.rooms roomId = some cs)
    (hStale : ∀ c ∈ cs, c.nick = nick → env c.wsId = false)
    (hR : roomId ≠ "") (hN : nick ≠ "") :
    handleConnection env st (some roomId) (some nick) wsId now =
      (let cs1 := cs.filter (fun c' => !(c'.nick == nick && !env c'.wsId));
       let st2 : ServerState := { st with rooms := aset st.rooms roomId (cs1 ++ [{ wsId := wsId, nick := nick, roomId := roomId, joinedAt := now }]) };
       (st2,
        Effect.unicast wsId (WireEvent.history ((alookup st.messageBuffers roomId).getD []))
          :: (broadcastUserList env st2 roomId
            ++ Effect.unicast wsId (WireEvent.typing ((alookup st.typingUsers roomId).getD []))
              :: (broadcastSystemMessage env st2 roomId (nick ++ " joined the room") now
                ++ [Effect.unicast wsId (WireEvent.connected "Successfully connected to the room")])))) := by
  have hcond : (roomId == "" || nick == "") = false := by
    simp [hR, hN]
  have hnone : ((cs.filter (fun c' => !(c'.nick == nick && !env c'.wsId))).find?
      (fun c' => c'.nick == nick && env c'.wsId)) = none := by
    rw [List.find?_eq_none]
    intro x hx
    have hxcs := (List.mem_filter.mp hx).1
    by_cases hn : x.nick = nick
    · simp [hn, hStale x hxcs hn]
    · simp [hn]
  simp only [handleConnection, hcond, Bool.false_eq_true, if_false,
    cleanupUserConnections, hRoom, alookup_aset_self, Option.getD_some, hnone,
    aset_aset]

/-- The successful-join reduction when the room does not exist yet: the room
is created empty and the newcomer gets an empty history snapshot. -/
theorem join_fresh_eq (env : Nat → Bool) (st : ServerState)
    (roomId nick : String) (wsId now : Nat)
    (hRoom : alookup st.rooms roomId = none)
    (hR : roomId ≠ "") (hN : nick ≠ "") :
    handleConnection env st (some roomId) (some nick) wsId now =
      (let st2 : ServerState := { rooms := aset st.rooms roomId [{ wsId := wsId, nick := nick, roomId := roomId, joinedAt := now }], messageBuffers := aset st.messageBuffers roomId [], typingUsers := aset st.typingUsers roomId [] };
       (st2,
        Effect.unicast wsId (WireEvent.history [])
          :: (broadcastUserList env st2 roomId
            ++ Effect.unicast wsId (WireEvent.typing [])
              :: (broadcastSystemMessage env st2 roomId (nick ++ " joined the room") now
                ++ [Effect.unicast wsId (WireEvent.connected "Successfully connected to the room")])))) := by
  have hcond : (roomId == "" || nick == "") = false := by
    simp [hR, hN]
  simp only [handleConnection, hcond, Bool.false_eq_true, if_false,
    cleanupUserConnections, hRoom, alookup_aset_self, Option.getD_some,
    List.filter_nil, aset_aset, List.find?_nil, List.nil_append]

/-- Every effect of `broadcastUserList` is a `userList` unicast. -/
theorem mem_broadcastUserList {env : Nat → Bool} {st : ServerState}
    {roomId : String} {e : Effect} (h : e ∈ broadcastUserList env st roomId) :
    ∃ u us, e = Effect.unicast u (WireEvent.userList us) := by
  unfold broadcastUserList at h
  obtain ⟨u, hu⟩ := mem_broadcastToRoom h
  exact ⟨u, _, hu⟩

/-- Every effect of `broadcastSystemMessage` is a `system` unicast. -/
theorem mem_broadcastSystemMessage {env : Nat → Bool} {st : ServerState}
    {roomId text : String} {now : Nat} {e : Effect}
    (h : e ∈ broadcastSystemMessage env st roomId text now) :
    ∃ u, e = Effect.unicast u (WireEvent.system text now) := by
  unfold broadcastSystemMessage at h
  exact mem_broadcastToRoom h

/-- Claim C5: a join attempt for which every same-identity entry in the room
has a non-open connection succeeds — the new client is registered at the end
of the room's client list and no close is issued; stale entries never block
reuse of the identity. -/
theorem stale_nick_reuse (env : Nat → Bool) (st : ServerState)
    (roomId nick : String) (wsId now : Nat)
    (hR : roomId ≠ "") (hN : nick ≠ "")
    (hStale : ∀ c ∈ (alookup st.rooms roomId).getD [],
      c.nick = nick → env c.wsId = false) :
    (∃ cs1, alookup (handleConnection env st (some roomId) (some nick) wsId now).1.rooms roomId
        = some (cs1 ++ [{ wsId := wsId, nick := nick, roomId := roomId, joinedAt := now }])) ∧
    (∀ w cd rs, Effect.closeConn w cd rs
        ∉ (handleConnection env st (some roomId) (some nick) wsId now).2) := by
  cases hRe : alookup st.rooms roomId with
  | none =>
    rw [join_fresh_eq env st roomId nick wsId now hRe hR hN]
    refine ⟨⟨[], by simp [alookup_aset_self]⟩, ?_⟩
    intro w cd rs hmem
    simp only [List.mem_cons, List.mem_append] at hmem
    rcases hmem with h | h
    · exact absurd h (by simp)
    rcases h with h | h
    · obtain ⟨u, us, hu⟩ := mem_broadcastUserList h
      exact absurd hu (by simp)
    rcases h with h | h
    · exact absurd h (by simp)
    rcases h with h | h
    · obtain ⟨u, hu⟩ := mem_broadcastSystemMessage h
      exact absurd hu (by simp)
    · exact absurd h (by simp)
  | some cs =>
    have hStale' : ∀ c ∈ cs, c.nick = nick → env c.wsId = false := by
      intro c hc
      apply hStale
      rw [hRe]
      simpa using hc
    rw [join_success_eq env st roomId nick wsId now cs hRe hStale' hR hN]
    dsimp only
    refine ⟨⟨_, alookup_aset_self _ _ _⟩, ?_⟩
    intro w cd rs hmem
    simp only [List.mem_cons, List.mem_append] at hmem
    rcases hmem with h | h
    · exact absurd h (by simp)
    rcases h with h | h
    · obtain ⟨u, us, hu⟩ := mem_broadcastUserList h
      exact absurd hu (by simp)
    rcases h with h | h
    · exact absurd h (by simp)
    rcases h with h | h
    · obtain ⟨u, hu⟩ := mem_broadcastSystemMessage h
      exact absurd hu (by simp)
    · exact absurd h (by simp)

/-- Room `"r"` holding only the stale (closed) entry for `"a"`. -/
def stStale : ServerState :=
  { rooms := [("r", [clientStaleA])],
    messageBuffers := [("r", [])],
    typingUsers := [("r", [])] }

/-- Witness for C5: joining as `"a"` over a room whose only `"a"` entry is
closed succeeds and issues no close. -/
theorem stale_nick_reuse_witness :
    (∃ cs1, alookup (handleConnection envOpen123 stStale (some "r") (some "a") 2 7).1.rooms "r"
        = some (cs1 ++ [{ wsId := 2, nick := "a", roomId := "r", joinedAt := 7 }])) ∧
    (∀ w cd rs, Effect.closeConn w cd rs
        ∉ (handleConnection envOpen123 stStale (some "r") (some "a") 2 7).2) :=
  stale_nick_reuse envOpen123 stStale "r" "a" 2 7 (by decide) (by decide) (by decide)

/-- Claim C6, amended: on every successful join — whether the room already
exists or is created by this very join — the join-time events are sent in the
order `history` (unicast, the room's buffer after the lazy initialization,
i.e. the empty list for a fresh room), `userList` (room-wide), `typing`
snapshot (unicast), `system` join notice (room-wide), and the `connected`
acknowledgment last — not first as claimed. -/
theorem join_event_order (env : Nat → Bool) (st : ServerState)
    (roomId nick : String) (wsId now : Nat)
    (hStale : ∀ c ∈ (alookup st.rooms roomId).getD [],
      c.nick = nick → env c.wsId = false)
    (hR : roomId ≠ "") (hN : nick ≠ "") :
    (handleConnection env st (some roomId) (some nick) wsId now).2 =
      Effect.unicast wsId (WireEvent.history ((alookup (handleConnection env st (some roomId) (some nick) wsId now).1.messageBuffers roomId).getD []))
        :: (broadcastUserList env (handleConnection env st (some roomId) (some nick) wsId now).1 roomId
          ++ Effect.unicast wsId (WireEvent.typing ((alookup (handleConnection env st (some roomId) (some nick) wsId now).1.typingUsers roomId).getD []))
            :: (broadcastSystemMessage env (handleConnection env st (some roomId) (some nick) wsId now).1 roomId (nick ++ " joined the room") now
              ++ [Effect.unicast wsId (WireEvent.connected "Successfully connected to the room")])) ∧
    (handleConnection env st (some roomId) (some nick) wsId now).2.getLast? =
      some (Effect.unicast wsId (WireEvent.connected "Successfully connected to the room")) := by
  have hlast : ∀ (a b x : Effect) (l1 l2 : List Effect),
      (a :: (l1 ++ b :: (l2 ++ [x]))).getLast? = some x := by
    intro a b x l1 l2
    rw [show a :: (l1 ++ b :: (l2 ++ [x])) = (a :: l1 ++ b :: l2) ++ [x] by simp]
    exact List.getLast?_concat _
  cases hRe : alookup st.rooms roomId with
  | none =>
    rw [join_fresh_eq env st roomId nick wsId now hRe hR hN]
    dsimp only
    refine ⟨?_, hlast _ _ _ _ _⟩
    simp only [alookup_aset_self, Option.getD_some]
  | some cs =>
    have hStale' : ∀ c ∈ cs, c.nick = nick → env c.wsId = false := by
      intro c hc
      apply hStale
      rw [hRe]
      simpa using hc
    rw [join_success_eq env st roomId nick wsId now cs hRe hStale' hR hN]
    dsimp only
    exact ⟨rfl, hlast _ _ _ _ _⟩

/-- Witness for C6 (amended) at a first join: `"a"` joining the not-yet-
existing room `"r"` of the empty store receives `history []` first and the
`connected` acknowledgment last. -/
theorem join_event_order_witness :
    (handleConnection envOpen123 stEmpty (some "r") (some "a") 1 0).2 =
      Effect.unicast 1 (WireEvent.history ((alookup (handleConnection envOpen123 stEmpty (some "r") (some "a") 1 0).1.messageBuffers "r").getD []))
        :: (broadcastUserList envOpen123 (handleConnection envOpen123 stEmpty (some "r") (some "a") 1 0).1 "r"
          ++ Effect.unicast 1 (WireEvent.typing ((alookup (handleConnection envOpen123 stEmpty (some "r") (some "a") 1 0).1.typingUsers "r").getD []))
            :: (broadcastSystemMessage envOpen123 (handleConnection envOpen123 stEmpty (some "r") (some "a") 1 0).1 "r" ("a" ++ " joined the room") 0
              ++ [Effect.unicast 1 (WireEvent.connected "Successfully connected to the room")])) ∧
    (handleConnection envOpen123 stEmpty (some "r") (some "a") 1 0).2.getLast? =
      some (Effect.unicast 1 (WireEvent.connected "Successfully connected to the room")) :=
  join_event_order envOpen123 stEmpty "r" "a" 1 0 (by decide) (by decide) (by decide)

/-- The close handler clears the disconnecting nick from the room's typing
set (or removes the whole set when the room empties). -/
theorem handleClose_typing_cleared (env : Nat → Bool) (st : ServerState)
    (roomId nick : String) (wsId now : Nat) (cs : List Client)
    (hRooms : alookup st.rooms roomId = some cs) :
    nick ∉ (alookup (handleClose env st roomId nick wsId now).1.typingUsers roomId).getD [] := by
  unfold handleClose broadcastTypingStatus
  simp only [hRooms]
  cases hT : alookup st.typingUsers roomId with
  | none =>
    simp only [hT]
    split
    · simp [alookup_aerase_self]
    · simp [hT]
  | some ts =>
    simp only [hT, alookup_aset_self, Option.getD_some, aset_aset]
    split
    · simp [alookup_aerase_self]
    · simp [alookup_aset_self, mem_setDel_iff]

/-- Claim C7: an accepted chat message from `nick` removes `nick` from the
room's typing set, with the typing broadcasts (none of which list `nick`)
preceding the room-wide `message` broadcast; the chat message — not any
typing payload — is what lands in History; and the close handler likewise
clears `nick` from the typing set. -/
theorem typing_cleared_on_chat (env : Nat → Bool) (st : ServerState)
    (roomId nick : String) (wsId now : Nat) (raw : String)
    (buf : List Message) (cs : List Client)
    (hBuf : alookup st.messageBuffers roomId = some buf)
    (hRooms : alookup st.rooms roomId = some cs)
    (hNE : jsTrim raw ≠ "")
    (hLen : (jsTrim raw).length ≤ 500) :
    nick ∉ (alookup (handleMessage env st roomId nick wsId now
        (InPayload.plain raw)).1.typingUsers roomId).getD [] ∧
    alookup (handleMessage env st roomId nick wsId now
        (InPayload.plain raw)).1.messageBuffers roomId
      = some (appendMessage buf { nick := nick, text := JVal.jstr (jsTrim raw), timestamp := now }) ∧
    (∃ tEffs, (handleMessage env st roomId nick wsId now (InPayload.plain raw)).2 =
        tEffs ++ cs.filterMap (fun c =>
          if env c.wsId then
            some (Effect.unicast c.wsId (WireEvent.message nick (JVal.jstr (jsTrim raw)) now))
          else none) ∧
      (∀ e ∈ tEffs, ∃ w ts, e = Effect.unicast w (WireEvent.typing ts) ∧ nick ∉ ts)) ∧
    (∀ w ts, Effect.unicast w (WireEvent.typing ts)
        ∈ (handleMessage env st roomId nick wsId now (InPayload.plain raw)).2 → nick ∉ ts) ∧
    nick ∉ (alookup (handleClose env st roomId nick wsId now).1.typingUsers roomId).getD [] := by
  have spec := chatAccept_spec env st roomId nick now (JVal.jstr (jsTrim raw)) buf cs hBuf hRooms
  have hcoreEq : handleMessageCore env st roomId nick wsId now (InPayload.plain raw)
      = processParsed env st roomId nick wsId now
          (JVal.jobj [("type", JVal.jstr "message"), ("text", JVal.jstr (jsTrim raw))]) := by
    simp only [handleMessageCore]
    rw [if_neg]
    simpa using hNE
  have hx := processParsed_chat env st roomId nick wsId now (jsTrim raw)
  rw [if_neg (by omega)] at hx
  have hplain : handleMessage env st roomId nick wsId now (InPayload.plain raw)
      = ((chatAccept env st roomId nick now (JVal.jstr (jsTrim raw))).1,
         (chatAccept env st roomId nick now (JVal.jstr (jsTrim raw))).2.1) := by
    simp only [handleMessage, hcoreEq, hx, spec.1]
    simp [spec.1]
  rw [hplain]
  obtain ⟨tEffs, hdec, htE⟩ := spec.2.2.2.2
  refine ⟨spec.2.2.2.1, spec.2.2.1, ⟨tEffs, hdec, htE⟩, ?_,
    handleClose_typing_cleared env st roomId nick wsId now cs hRooms⟩
  intro w ts hmem
  rw [hdec] at hmem
  rcases List.mem_append.mp hmem with h | h
  · obtain ⟨w', ts', he, hn⟩ := htE _ h
    injection he with h1 h2
    injection h2 with h3
    subst h3
    exact hn
  · obtain ⟨c, _, hc⟩ := List.mem_filterMap.mp h
    by_cases hw : env c.wsId
    · rw [if_pos hw] at hc
      exact absurd hc.symm (by simp)
    · rw [if_neg hw] at hc
      cases hc

/-- Room `"r"` with open client `"a"` and typing set `{"a","b"}`. -/
def stTypingR : ServerState :=
  { rooms := [("r", [clientA])],
    messageBuffers := [("r", [])],
    typingUsers := [("r", ["a", "b"])] }

/-- Witness for C7: after `"a"` (currently typing) sends `" hello "`, `"a"`
is out of the typing set and the trimmed chat message is in the buffer. -/
theorem typing_cleared_on_chat_witness :
    "a" ∉ (alookup (handleMessage envOpen123 stTypingR "r" "a" 1 5
        (InPayload.plain " hello ")).1.typingUsers "r").getD [] ∧
    alookup (handleMessage envOpen123 stTypingR "r" "a" 1 5
        (InPayload.plain " hello ")).1.messageBuffers "r"
      = some (appendMessage []
          { nick := "a", text := JVal.jstr (jsTrim " hello "), timestamp := 5 }) := by
  have h := typing_cleared_on_chat envOpen123 stTypingR "r" "a" 1 5 " hello "
    [] [clientA] rfl rfl (by decide) (by decide)
  exact ⟨h.1, h.2.1⟩

/-- Claim C8: when a room's client list becomes empty — through the close
handler or through the periodic sweep — the room, its History buffer and its
typing set are all deleted from the store; a subsequent join to the same id
creates a fresh one-member room and receives the empty `history` snapshot. -/
theorem empty_room_cleanup (env : Nat → Bool) (st : ServerState)
    (roomId nick : String) (wsId now : Nat) (cs : List Client)
    (env2 : Nat → Bool) (st2 : ServerState) (roomId2 : String) (cs2 : List Client)
    (env3 : Nat → Bool) (st3 : ServerState) (roomId3 nick3 : String) (wsId3 now3 : Nat)
    (hRoom : alookup st.rooms roomId = some cs)
    (hAll : cs.filter (fun c => c.wsId ≠ wsId) = [])
    (hRoom2 : alookup st2.rooms roomId2 = some cs2)
    (hNoOpen : cs2.filter (fun c => env2 c.wsId) = [])
    (hNonempty : cs2 ≠ [])
    (hAbsent : alookup st3.rooms roomId3 = none)
    (hR3 : roomId3 ≠ "") (hN3 : nick3 ≠ "") :
    (alookup (handleClose env st roomId nick wsId now).1.rooms roomId = none ∧
     alookup (handleClose env st roomId nick wsId now).1.messageBuffers roomId = none ∧
     alookup (handleClose env st roomId nick wsId now).1.typingUsers roomId = none) ∧
    (alookup (sweepRoom env2 st2 roomId2).1.rooms roomId2 = none ∧
     alookup (sweepRoom env2 st2 roomId2).1.messageBuffers roomId2 = none ∧
     alookup (sweepRoom env2 st2 roomId2).1.typingUsers roomId2 = none) ∧
    (Effect.unicast wsId3 (WireEvent.history [])
        ∈ (handleConnection env3 st3 (some roomId3) (some nick3) wsId3 now3).2 ∧
     alookup (handleConnection env3 st3 (some roomId3) (some nick3) wsId3 now3).1.rooms roomId3
       = some [{ wsId := wsId3, nick := nick3, roomId := roomId3, joinedAt := now3 }] ∧
     alookup (handleConnection env3 st3 (some roomId3) (some nick3) wsId3 now3).1.messageBuffers roomId3
       = some []) := by
  refine ⟨?_, ?_, ?_⟩
  · unfold handleClose broadcastTypingStatus
    simp only [hRoom, hAll]
    cases hT : alookup st.typingUsers roomId with
    | none =>
      simp [hT, alookup_aerase_self]
    | some ts =>
      simp [hT, alookup_aerase_self]
  · unfold sweepRoom
    simp only [hRoom2, hNoOpen]
    have hne : ¬(([] : List Client).length = cs2.length) := by
      simp only [List.length_nil]
      intro hcontra
      exact hNonempty (List.length_eq_zero.mp hcontra.symm)
    rw [if_pos hne]
    simp [alookup_aerase_self]
  · rw [join_fresh_eq env3 st3 roomId3 nick3 wsId3 now3 hAbsent hR3 hN3]
    dsimp only
    exact ⟨List.mem_cons_self _ _, alookup_aset_self _ _ _, alookup_aset_self _ _ _⟩

/-- Witness for C8: closing the last member of `stR` deletes room `"r"`
entirely; sweeping it with every connection dead does the same; a fresh join
to an unknown room id gets `history []`. -/
theorem empty_room_cleanup_witness :
    (alookup (handleClose envOpen123 stR "r" "a" 1 9).1.rooms "r" = none ∧
     alookup (handleClose envOpen123 stR "r" "a" 1 9).1.messageBuffers "r" = none) ∧
    alookup (sweepRoom (fun _ => false) stR "r").1.rooms "r" = none ∧
    Effect.unicast 2 (WireEvent.history [])
      ∈ (handleConnection envOpen123 stEmpty (some "q") (some "n") 2 3).2 := by
  have h := empty_room_cleanup envOpen123 stR "r" "a" 1 9 [clientA]
    (fun _ => false) stR "r" [clientA]
    envOpen123 stEmpty "q" "n" 2 3
    rfl (by decide) rfl (by decide) (by decide) rfl (by decide) (by decide)
  exact ⟨⟨h.1.1, h.1.2.1⟩, h.2.1.1, h.2.2.1⟩

/-- Claim C9: for a registered session whose room has a live buffer and
client list, any inbound payload whose handling throws (for example the chat
shape `{"type":"message"}` with no `text`, which faults at the length check)
is caught and answered with exactly one unicast
`error "Error processing message"`; no close is issued and the server state
— client list, History, typing set — is exactly as before. -/
theorem processing_fault_caught (env : Nat → Bool) (st : ServerState)
    (roomId nick : String) (wsId now : Nat) (d : InPayload)
    (buf : List Message) (cs : List Client)
    (hBuf : alookup st.messageBuffers roomId = some buf)
    (hRooms : alookup st.rooms roomId = some cs)
    (hThrew : (handleMessageCore env st roomId nick wsId now d).2.2 = true) :
    handleMessage env st roomId nick wsId now d
      = (st, [Effect.unicast wsId (WireEvent.error "Error processing message")]) := by
  have hcore : handleMessageCore env st roomId nick wsId now d = (st, [], true) := by
    cases d with
    | plain raw =>
      exfalso
      by_cases hE : (jsTrim raw == "") = true
      · rw [show handleMessageCore env st roomId nick wsId now (InPayload.plain raw)
            = (st, [], false) from by simp only [handleMessageCore]; rw [if_pos hE]]
          at hThrew
        exact Bool.false_ne_true hThrew
      · have hcoreEq : handleMessageCore env st roomId nick wsId now (InPayload.plain raw)
            = processParsed env st roomId nick wsId now
                (JVal.jobj [("type", JVal.jstr "message"), ("text", JVal.jstr (jsTrim raw))]) := by
          simp only [handleMessageCore]
          rw [if_neg hE]
        rw [hcoreEq, processParsed_chat] at hThrew
        by_cases hL : (jsTrim raw).length > 500
        · rw [if_pos hL] at hThrew
          exact Bool.false_ne_true hThrew
        · rw [if_neg hL] at hThrew
          rw [(chatAccept_spec env st roomId nick now (JVal.jstr (jsTrim raw))
            buf cs hBuf hRooms).1] at hThrew
          exact Bool.false_ne_true hThrew
    | jsonVal v =>
      simp only [handleMessageCore] at hThrew ⊢
      cases hM : jsMember v "type" with
      | error e =>
        simp only [processParsed, hM]
      | ok ty =>
        simp only [processParsed, hM] at hThrew ⊢
        by_cases h1 : jsStrictEqStr ty "typing" = true
        · exfalso
          obtain ⟨isT, hIsT⟩ := jsMember_ok_of_ok "isTyping" hM
          rw [if_pos h1] at hThrew
          rw [hIsT] at hThrew
          exact Bool.false_ne_true hThrew
        · rw [if_neg h1] at hThrew ⊢
          by_cases h2 : jsStrictEqStr ty "message" = true
          · rw [if_pos h2] at hThrew ⊢
            obtain ⟨txt, hTx⟩ := jsMember_ok_of_ok "text" hM
            rw [hTx] at hThrew ⊢
            cases txt with
            | none => rfl
            | some t =>
              dsimp only at hThrew ⊢
              cases hLn : jsLenVal t with
              | error e2 => rfl
              | ok len =>
                exfalso
                rw [hLn] at hThrew
                by_cases hG : jsGTnum len 500 = true
                · simp only [hG, if_true] at hThrew
                  exact Bool.false_ne_true hThrew
                · simp only [hG, Bool.false_eq_true, if_false] at hThrew
                  rw [(chatAccept_spec env st roomId nick now t
                    buf cs hBuf hRooms).1] at hThrew
                  exact Bool.false_ne_true hThrew
          · exfalso
            rw [if_neg h2] at hThrew
            exact Bool.false_ne_true hThrew
  simp only [handleMessage, hcore]
  simp

/-- Witness for C9: the chat-shaped payload `{"type":"message"}` with no
`text` field faults, is answered with the generic error, and changes
nothing. -/
theorem processing_fault_caught_witness :
    handleMessage envOpen123 stR "r" "a" 1 5
      (InPayload.jsonVal (JVal.jobj [("type", JVal.jstr "message")]))
      = (stR, [Effect.unicast 1 (WireEvent.error "Error processing message")]) :=
  processing_fault_caught envOpen123 stR "r" "a" 1 5
    (InPayload.jsonVal (JVal.jobj [("type", JVal.jstr "message")]))
    [] [clientA] rfl rfl rfl

end ChatServer
